import Mathlib

/-!
# Verification of the RENPHO CSV import pipeline

A shallow embedding, in Lean 4, of the import-transformation pipeline of the
health-tracker repository:

* `CsvParsingService` (`transformRenphoData`, `groupByDate`,
  `averageDailyMeasurements`, `roundToDecimal`) from
  `src/domains/dashboard/services/csv-parsing.service.ts`;
* `ImportValidationService` (`validateMeasurements` and its sub-checks);
* `RenphoImportService` (`processImport`, `previewData`).

JavaScript numbers are modelled as exact rationals (`ℚ`); `Math.round x` is
`⌊x + 1/2⌋` (JavaScript rounds halves toward positive infinity).  JavaScript
objects used as string-keyed maps (`Record<string, T[]>`) are modelled as
association lists in key-insertion order, which is the enumeration order of
`Object.entries` for non-index string keys.  Warning messages interpolate
JavaScript floating-point renderings of numbers; they are modelled as
structured events carrying the interpolated values, while error messages
(which interpolate only string and integer values) are modelled as the
literal strings the code builds.
-/

namespace HealthTracker

/-- JavaScript `Math.round`: rounds half toward positive infinity,
so `Math.round (-0.5) = 0` and `Math.round (2.5) = 3`. -/
def jsRound (x : ℚ) : ℤ := ⌊x + 1 / 2⌋

/-- `CsvParsingService.roundToDecimal`:
`Math.round(num * Math.pow(10, decimals)) / Math.pow(10, decimals)`. -/
def roundToDecimal (num : ℚ) (decimals : ℕ) : ℚ :=
  (jsRound (num * 10 ^ decimals) : ℚ) / 10 ^ decimals

/-- `TransformedMeasurement` from `renpho-import.types.ts`.  The TypeScript
type constrains `source` to the literal `'renpho_import'`; it is kept here as
a string field set by the producers. -/
@[ext]
structure TransformedMeasurement where
  date : String
  time : String
  weight : ℚ
  bmi : ℚ
  body_fat_percentage : ℚ
  skeletal_muscle_percentage : ℚ
  fat_free_body_weight : ℚ
  subcutaneous_fat_percentage : ℚ
  visceral_fat : ℚ
  body_water_percentage : ℚ
  muscle_mass : ℚ
  bone_mass : ℚ
  protein_percentage : ℚ
  basal_metabolic_rate : ℚ
  metabolic_age : ℚ
  body_type : ℚ
  source : String
  deriving DecidableEq, Repr

instance : Inhabited TransformedMeasurement :=
  ⟨⟨"", "", 0, 0, 0, 0, 0, 0, 0, 0, 0, 0, 0, 0, 0, 0, ""⟩⟩

/-- `DuplicateDetection` from `renpho-import.types.ts`: a `{date, count}` pair. -/
structure DuplicateDetection where
  date : String
  count : ℕ
  deriving DecidableEq, Repr

/-- The `Record<string, TransformedMeasurement[]>` map of `groupByDate`,
as an association list in key-insertion order. -/
abbrev Grouped := List (String × List TransformedMeasurement)

namespace CsvParsingService

/-- One iteration of the `data.forEach` loop in `groupByDate`:
`if (!grouped[record.date]) grouped[record.date] = []; grouped[record.date].push(record)`. -/
def addRecord (acc : Grouped) (r : TransformedMeasurement) : Grouped :=
  if r.date ∈ acc.map Prod.fst then
    acc.map (fun p => if p.1 = r.date then (p.1, p.2 ++ [r]) else p)
  else
    acc ++ [(r.date, [r])]

/-- The grouping loop of `CsvParsingService.groupByDate`. -/
def groupFold (data : List TransformedMeasurement) : Grouped :=
  data.foldl addRecord []

/-- Return type of `CsvParsingService.groupByDate`. -/
structure GroupResult where
  grouped : Grouped
  duplicates : List DuplicateDetection
  deriving Repr

/-- `CsvParsingService.groupByDate`: group measurements by date, then collect
`Object.entries(grouped).filter(([, records]) => records.length > 1)`
as the duplicates list. -/
def groupByDate (data : List TransformedMeasurement) : GroupResult :=
  let grouped := groupFold data
  { grouped := grouped
    duplicates := (grouped.filter (fun p => 1 < p.2.length)).map
      (fun p => { date := p.1, count := p.2.length }) }

/-- `records.reduce((sum, r) => sum + f(r), 0)`. -/
def sumBy (records : List TransformedMeasurement) (f : TransformedMeasurement → ℚ) : ℚ :=
  records.foldl (fun sum r => sum + f r) 0

/-- `this.roundToDecimal(records.reduce(..) / count, 1)` for one decimal field. -/
def avgField1 (records : List TransformedMeasurement) (f : TransformedMeasurement → ℚ) : ℚ :=
  roundToDecimal (sumBy records f / records.length) 1

/-- `Math.round(records.reduce(..) / count)` for the integer-rounded fields. -/
def avgFieldInt (records : List TransformedMeasurement) (f : TransformedMeasurement → ℚ) : ℚ :=
  (jsRound (sumBy records f / records.length) : ℚ)

/-- The body of the `Object.entries(grouped).map` in `averageDailyMeasurements`:
the averaged record for one date bucket.  `records[0]` is taken with a default
on the empty bucket (which the grouper never produces; JavaScript would fail
on `first.time` there). -/
def averageOne (date : String) (records : List TransformedMeasurement) :
    TransformedMeasurement :=
  let first := records.headI
  { date := date
    time := first.time
    weight := avgField1 records (fun r => r.weight)
    bmi := avgField1 records (fun r => r.bmi)
    body_fat_percentage := avgField1 records (fun r => r.body_fat_percentage)
    skeletal_muscle_percentage := avgField1 records (fun r => r.skeletal_muscle_percentage)
    fat_free_body_weight := avgField1 records (fun r => r.fat_free_body_weight)
    subcutaneous_fat_percentage := avgField1 records (fun r => r.subcutaneous_fat_percentage)
    visceral_fat := avgField1 records (fun r => r.visceral_fat)
    body_water_percentage := avgField1 records (fun r => r.body_water_percentage)
    muscle_mass := avgField1 records (fun r => r.muscle_mass)
    bone_mass := avgField1 records (fun r => r.bone_mass)
    protein_percentage := avgField1 records (fun r => r.protein_percentage)
    basal_metabolic_rate := avgFieldInt records (fun r => r.basal_metabolic_rate)
    metabolic_age := avgFieldInt records (fun r => r.metabolic_age)
    body_type := avgFieldInt records (fun r => r.body_type)
    source := "renpho_import" }

/-- `CsvParsingService.averageDailyMeasurements`: one averaged record per
date bucket, in `Object.entries` (insertion) order. -/
def averageDailyMeasurements (grouped : Grouped) : List TransformedMeasurement :=
  grouped.map (fun p => averageOne p.1 p.2)

theorem groupFold_append (data : List TransformedMeasurement) (r : TransformedMeasurement) :
    groupFold (data ++ [r]) = addRecord (groupFold data) r := by
  simp [groupFold, List.foldl_append]

/-- Characterization of the grouping loop: keys are distinct, a date is a key
iff some record carries it, and the bucket of a key is exactly the sublist of
input records carrying that date (in input order). -/
theorem groupFold_spec (data : List TransformedMeasurement) :
    ((groupFold data).map Prod.fst).Nodup ∧
    (∀ d : String, d ∈ (groupFold data).map Prod.fst ↔ ∃ x ∈ data, x.date = d) ∧
    (∀ d recs, (d, recs) ∈ groupFold data ↔
      recs = data.filter (fun x => x.date = d) ∧ recs ≠ []) := by
  induction data using List.reverseRecOn with
  | nil => simp [groupFold]
  | append_singleton data r ih =>
    obtain ⟨hnd, hkeys, hmem⟩ := ih
    rw [groupFold_append]
    unfold addRecord
    by_cases hd : r.date ∈ (groupFold data).map Prod.fst
    · rw [if_pos hd]
      have hfst : ((groupFold data).map
          (fun p => if p.1 = r.date then (p.1, p.2 ++ [r]) else p)).map Prod.fst
          = (groupFold data).map Prod.fst := by
        rw [List.map_map]
        apply List.map_congr_left
        intro p _
        by_cases h : p.1 = r.date <;> simp [h]
      obtain ⟨x0, hx0, hx0d⟩ := (hkeys r.date).mp hd
      have hfilter_ne : data.filter (fun x => x.date = r.date) ≠ [] := by
        intro hcon
        have := List.filter_eq_nil_iff.mp hcon x0 hx0
        simp [hx0d] at this
      refine ⟨by rw [hfst]; exact hnd, ?_, ?_⟩
      · intro d
        rw [hfst, hkeys d]
        constructor
        · rintro ⟨x, hx, hxd⟩
          exact ⟨x, List.mem_append_left _ hx, hxd⟩
        · rintro ⟨x, hx, hxd⟩
          rcases List.mem_append.mp hx with h | h
          · exact ⟨x, h, hxd⟩
          · have hxr : x = r := by simpa using h
            subst hxr
            exact ⟨x0, hx0, by rw [hx0d, hxd]⟩
      · intro d recs
        constructor
        · intro h
          obtain ⟨⟨d1, recs1⟩, hp, heq⟩ := List.mem_map.mp h
          have hrecs1 := ((hmem d1 recs1).mp hp).1
          by_cases hcase : d1 = r.date
          · rw [if_pos hcase, Prod.mk.injEq] at heq
            obtain ⟨hd1, hrecs⟩ := heq
            subst hd1
            constructor
            · rw [← hrecs, hrecs1, List.filter_append]
              simp [hcase]
            · rw [← hrecs]; simp
          · rw [if_neg hcase, Prod.mk.injEq] at heq
            obtain ⟨hd1, hrecs⟩ := heq
            subst hd1
            have hne := ((hmem d1 recs1).mp hp).2
            constructor
            · rw [← hrecs, hrecs1, List.filter_append]
              simp [Ne.symm hcase]
            · rw [← hrecs]; exact hne
        · rintro ⟨hrecs, hne⟩
          by_cases hcase : d = r.date
          · have hform : recs = data.filter (fun x => x.date = d) ++ [r] := by
              rw [hrecs, List.filter_append]
              simp [hcase]
            have hfilter_ne2 : data.filter (fun x => x.date = d) ≠ [] := by
              rw [hcase]; exact hfilter_ne
            have hG : (d, data.filter (fun x => x.date = d)) ∈ groupFold data :=
              (hmem d _).mpr ⟨rfl, hfilter_ne2⟩
            refine List.mem_map.mpr ⟨(d, data.filter (fun x => x.date = d)), hG, ?_⟩
            simp only [hcase, if_pos]
            rw [← hcase, hform]
          · have hform : recs = data.filter (fun x => x.date = d) := by
              rw [hrecs, List.filter_append]
              simp [Ne.symm hcase]
            have hG : (d, recs) ∈ groupFold data := (hmem d recs).mpr ⟨hform, hne⟩
            refine List.mem_map.mpr ⟨(d, recs), hG, ?_⟩
            simp [hcase]
    · rw [if_neg hd]
      refine ⟨?_, ?_, ?_⟩
      · rw [List.map_append]
        rw [List.nodup_append]
        refine ⟨hnd, by simp, ?_⟩
        intro a ha hb
        simp at hb
        subst hb
        exact hd ha
      · intro d
        rw [List.map_append]
        simp only [List.mem_append]
        constructor
        · rintro (h | h)
          · obtain ⟨x, hx, hxd⟩ := (hkeys d).mp h
            exact ⟨x, Or.inl hx, hxd⟩
          · have hdr : d = r.date := by simpa using h
            exact ⟨r, Or.inr (by simp), hdr.symm⟩
        · rintro ⟨x, hx | hx, hxd⟩
          · exact Or.inl ((hkeys d).mpr ⟨x, hx, hxd⟩)
          · have hxr : x = r := by simpa using hx
            subst hxr
            exact Or.inr (by simp [hxd])
      · intro d recs
        have hfilter_nil : data.filter (fun x => x.date = r.date) = [] := by
          rw [List.filter_eq_nil_iff]
          intro x hx
          simp only [decide_eq_true_eq]
          intro hxd
          exact hd ((hkeys r.date).mpr ⟨x, hx, hxd⟩)
        constructor
        · intro h
          rcases List.mem_append.mp h with h | h
          · obtain ⟨hrecs, hne⟩ := (hmem d recs).mp h
            have hdkey : d ∈ (groupFold data).map Prod.fst :=
              List.mem_map.mpr ⟨(d, recs), h, rfl⟩
            have hdr : d ≠ r.date := fun hc => hd (hc ▸ hdkey)
            constructor
            · rw [hrecs, List.filter_append]
              simp [Ne.symm hdr]
            · exact hne
          · have heq : d = r.date ∧ recs = [r] := by simpa using h
            obtain ⟨hdr, hr⟩ := heq
            subst hdr
            constructor
            · rw [hr, List.filter_append, hfilter_nil]
              simp
            · rw [hr]; simp
        · rintro ⟨hrecs, hne⟩
          by_cases hcase : d = r.date
          · subst hcase
            have : recs = [r] := by
              rw [hrecs, List.filter_append, hfilter_nil]
              simp
            exact List.mem_append_right _ (by simp [this])
          · have hform : recs = data.filter (fun x => x.date = d) := by
              rw [hrecs, List.filter_append]
              simp [Ne.symm hcase]
            exact List.mem_append_left _ ((hmem d recs).mpr ⟨hform, hne⟩)

theorem groupByDate_grouped (data : List TransformedMeasurement) :
    (groupByDate data).grouped = groupFold data := rfl

theorem groupByDate_duplicates (data : List TransformedMeasurement) :
    (groupByDate data).duplicates =
      ((groupFold data).filter (fun p => 1 < p.2.length)).map
        (fun p => { date := p.1, count := p.2.length }) := rfl

/-- The exact-partition property of `groupByDate` asserted by the spec:
every input record lands in the bucket of its own date, buckets are non-empty
and date-homogeneous, bucket keys are distinct, and the duplicates list holds
exactly the dates whose bucket has more than one record, with that bucket's
size. -/
def exactPartition (data : List TransformedMeasurement) : Prop :=
  (∀ x ∈ data, ∃ recs, (x.date, recs) ∈ (groupByDate data).grouped ∧ x ∈ recs) ∧
  (∀ d recs, (d, recs) ∈ (groupByDate data).grouped →
    recs ≠ [] ∧ ∀ x ∈ recs, x.date = d) ∧
  (∀ x ∈ data, ∀ d recs, (d, recs) ∈ (groupByDate data).grouped → x ∈ recs →
    d = x.date) ∧
  (((groupByDate data).grouped.map Prod.fst).Nodup) ∧
  (∀ d c, (⟨d, c⟩ : DuplicateDetection) ∈ (groupByDate data).duplicates ↔
    ∃ recs, (d, recs) ∈ (groupByDate data).grouped ∧ recs.length = c ∧
      1 < recs.length)

/-- **C4**: for every list of canonical measurements, `groupByDate` partitions
the input exactly: every input record appears in exactly one date bucket (the
bucket keyed by its own date, buckets having pairwise distinct keys), every
bucket is non-empty and contains only records with that date, and the
duplicates list contains exactly those dates whose bucket has more than one
record, each paired with that bucket's size. -/
theorem claim_C4 (data : List TransformedMeasurement) : exactPartition data := by
  obtain ⟨hnd, hkeys, hmem⟩ := groupFold_spec data
  refine ⟨?_, ?_, ?_, ?_, ?_⟩
  · intro x hx
    refine ⟨data.filter (fun y => y.date = x.date), ?_, ?_⟩
    · rw [groupByDate_grouped]
      refine (hmem _ _).mpr ⟨rfl, ?_⟩
      intro hcon
      have := List.filter_eq_nil_iff.mp hcon x hx
      simp at this
    · simp [List.mem_filter, hx]
  · intro d recs h
    rw [groupByDate_grouped] at h
    obtain ⟨hrecs, hne⟩ := (hmem d recs).mp h
    refine ⟨hne, ?_⟩
    intro x hx
    rw [hrecs] at hx
    exact of_decide_eq_true (List.mem_filter.mp hx).2
  · intro x _ d recs h hx
    rw [groupByDate_grouped] at h
    obtain ⟨hrecs, _⟩ := (hmem d recs).mp h
    rw [hrecs] at hx
    exact (of_decide_eq_true (List.mem_filter.mp hx).2).symm
  · rw [groupByDate_grouped]; exact hnd
  · intro d c
    rw [groupByDate_duplicates, groupByDate_grouped]
    constructor
    · intro h
      obtain ⟨⟨d1, recs1⟩, hp, heq⟩ := List.mem_map.mp h
      obtain ⟨hp1, hp2⟩ := List.mem_filter.mp hp
      rw [DuplicateDetection.mk.injEq] at heq
      obtain ⟨hd1, hc⟩ := heq
      subst hd1
      exact ⟨recs1, hp1, by simpa using hc, of_decide_eq_true hp2⟩
    · rintro ⟨recs, hrecs, hlen, hgt⟩
      refine List.mem_map.mpr ⟨(d, recs), List.mem_filter.mpr ⟨hrecs, ?_⟩, ?_⟩
      · simpa using hgt
      · simp [hlen]

/-- A concrete measurement record used by the claim witnesses. -/
def mBase : TransformedMeasurement :=
  { date := "2024-01-01"
    time := "08:00:00"
    weight := 70
    bmi := 22
    body_fat_percentage := 20
    skeletal_muscle_percentage := 40
    fat_free_body_weight := 56
    subcutaneous_fat_percentage := 18
    visceral_fat := 6
    body_water_percentage := 55
    muscle_mass := 50
    bone_mass := 3
    protein_percentage := 17
    basal_metabolic_rate := 1500
    metabolic_age := 30
    body_type := 5
    source := "renpho_import" }

/-- Example input: two same-day records and one record on another day. -/
def exData : List TransformedMeasurement :=
  [mBase, { mBase with time := "21:00:00", weight := 72 },
   { mBase with date := "2024-01-02", weight := 71 }]

/-- Witness for C4: the exact-partition property at a concrete input. -/
theorem claim_C4_witness : exactPartition exData := claim_C4 exData

/-- The number of distinct dates carrying more than one record, stated
directly on the input list (the right-hand side of the spec's duplicate-count
invariant). -/
def numDupDates (data : List TransformedMeasurement) : ℕ :=
  ((data.map (fun x => x.date)).dedup.filter
    (fun d => 1 < (data.filter (fun x => x.date = d)).length)).length

/-- Two same-day records: the duplicates counts sum to 2, yet only one date
has more than one record. -/
def exDup : List TransformedMeasurement :=
  [mBase, { mBase with time := "21:00:00", weight := 72 }]

/-- **C7 counterexample**: on two records sharing one date, the sum of the
`count` fields over the duplicates list is 2, while the number of dates with
more than one record is 1; the claimed equality fails. -/
theorem claim_C7_counterexample :
    ((groupByDate exDup).duplicates.map (fun dd => dd.count)).sum = 2 ∧
    numDupDates exDup = 1 ∧ (2 : ℕ) ≠ 1 := by decide

/-- **C7 (amended)**: the *length* of the duplicates list produced by
`groupByDate` equals the number of dates that have more than one record
(each `count` field is the full bucket size, so their sum exceeds the number
of duplicated dates whenever one exists). -/
theorem claim_C7 (data : List TransformedMeasurement) :
    (groupByDate data).duplicates.length = numDupDates data := by
  obtain ⟨hnd, hkeys, hmem⟩ := groupFold_spec data
  rw [groupByDate_duplicates, List.length_map]
  have hcongr : (groupFold data).filter (fun p => 1 < p.2.length) =
      (groupFold data).filter
        (fun p => 1 < (data.filter (fun x => x.date = p.1)).length) := by
    apply List.filter_congr
    intro p hp
    have hbucket := ((hmem p.1 p.2).mp (by rw [Prod.mk.eta]; exact hp)).1
    rw [hbucket]
  have hmapfst : ((groupFold data).map Prod.fst).filter
      (fun d => 1 < (data.filter (fun x => x.date = d)).length) =
      ((groupFold data).filter
        (fun p => 1 < (data.filter (fun x => x.date = p.1)).length)).map
        Prod.fst := by
    rw [List.filter_map]
    rfl
  have hperm : ((groupFold data).map Prod.fst).Perm
      (data.map (fun x => x.date)).dedup := by
    rw [List.perm_ext_iff_of_nodup hnd (List.nodup_dedup _)]
    intro d
    rw [List.mem_dedup, hkeys d]
    exact List.mem_map.symm
  rw [hcongr]
  unfold numDupDates
  calc ((groupFold data).filter
        (fun p => 1 < (data.filter (fun x => x.date = p.1)).length)).length
      = (((groupFold data).filter
          (fun p => 1 < (data.filter (fun x => x.date = p.1)).length)).map
          Prod.fst).length := (List.length_map _ _).symm
    _ = (((groupFold data).map Prod.fst).filter
          (fun d => 1 < (data.filter (fun x => x.date = d)).length)).length := by
        rw [hmapfst]
    _ = ((data.map (fun x => x.date)).dedup.filter
          (fun d => 1 < (data.filter (fun x => x.date = d)).length)).length :=
        (hperm.filter _).length_eq

/-- Witness for the amended C7 at the concrete two-record input. -/
theorem claim_C7_witness :
    (groupByDate exDup).duplicates.length = numDupDates exDup :=
  claim_C7 exDup

end CsvParsingService

theorem floor_half : ⌊(1 : ℚ) / 2⌋ = 0 := by
  rw [Int.floor_eq_zero_iff]
  constructor <;> norm_num

/-- A rational with denominator 1 is a fixed point of `Math.round`. -/
theorem jsRound_eq_self (x : ℚ) (h : x.den = 1) : (jsRound x : ℚ) = x := by
  have hx : ((x.num : ℚ)) = x := (Rat.den_eq_one_iff x).mp h
  unfold jsRound
  rw [← hx, Int.floor_int_add, floor_half]
  push_cast
  ring

/-- A rational that is a multiple of 1/10 is a fixed point of
`roundToDecimal _ 1`. -/
theorem roundToDecimal_one_self (x : ℚ) (h : (x * 10).den = 1) :
    roundToDecimal x 1 = x := by
  unfold roundToDecimal
  norm_num
  rw [jsRound_eq_self (x * 10) h]
  field_simp

namespace CsvParsingService

theorem sumBy_eq_sum (records : List TransformedMeasurement)
    (f : TransformedMeasurement → ℚ) :
    sumBy records f = (records.map f).sum := by
  rw [sumBy, List.sum_eq_foldl, List.foldl_map]

/-- All numeric fields lie at the aggregator's rounding precision: the eleven
1-decimal fields are integer multiples of 1/10 and the three integer-rounded
fields are integers. -/
def atRoundingPrecision (x : TransformedMeasurement) : Prop :=
  (x.weight * 10).den = 1 ∧ (x.bmi * 10).den = 1 ∧
  (x.body_fat_percentage * 10).den = 1 ∧
  (x.skeletal_muscle_percentage * 10).den = 1 ∧
  (x.fat_free_body_weight * 10).den = 1 ∧
  (x.subcutaneous_fat_percentage * 10).den = 1 ∧
  (x.visceral_fat * 10).den = 1 ∧ (x.body_water_percentage * 10).den = 1 ∧
  (x.muscle_mass * 10).den = 1 ∧ (x.bone_mass * 10).den = 1 ∧
  (x.protein_percentage * 10).den = 1 ∧
  x.basal_metabolic_rate.den = 1 ∧ x.metabolic_age.den = 1 ∧ x.body_type.den = 1

instance (x : TransformedMeasurement) : Decidable (atRoundingPrecision x) := by
  unfold atRoundingPrecision
  infer_instance

/-- Averaging a one-record bucket at rounding precision reproduces the record. -/
theorem averageOne_single (x : TransformedMeasurement)
    (hsrc : x.source = "renpho_import") (hp : atRoundingPrecision x) :
    averageOne x.date [x] = x := by
  obtain ⟨h1, h2, h3, h4, h5, h6, h7, h8, h9, h10, h11, h12, h13, h14⟩ := hp
  have havg1 : ∀ f : TransformedMeasurement → ℚ, (f x * 10).den = 1 →
      avgField1 [x] f = f x := by
    intro f hf
    unfold avgField1
    have hs : sumBy [x] f = f x := by simp [sumBy]
    rw [hs]
    simp only [List.length_singleton, Nat.cast_one, div_one]
    exact roundToDecimal_one_self (f x) hf
  have havgInt : ∀ f : TransformedMeasurement → ℚ, (f x).den = 1 →
      avgFieldInt [x] f = f x := by
    intro f hf
    unfold avgFieldInt
    have hs : sumBy [x] f = f x := by simp [sumBy]
    rw [hs]
    simp only [List.length_singleton, Nat.cast_one, div_one]
    exact jsRound_eq_self (f x) hf
  exact TransformedMeasurement.ext rfl rfl (havg1 _ h1) (havg1 _ h2)
    (havg1 _ h3) (havg1 _ h4) (havg1 _ h5) (havg1 _ h6) (havg1 _ h7)
    (havg1 _ h8) (havg1 _ h9) (havg1 _ h10) (havg1 _ h11) (havgInt _ h12)
    (havgInt _ h13) (havgInt _ h14) hsrc.symm

/-- On an input whose dates are pairwise distinct, the grouper produces one
singleton bucket per record, in input order. -/
theorem groupFold_nodup_dates (data : List TransformedMeasurement)
    (h : (data.map (fun x => x.date)).Nodup) :
    groupFold data = data.map (fun r => (r.date, [r])) := by
  induction data using List.reverseRecOn with
  | nil => simp [groupFold]
  | append_singleton data r ih =>
    rw [List.map_append, List.nodup_append] at h
    obtain ⟨h1, _, hdisj⟩ := h
    have hnotin : r.date ∉ data.map (fun x => x.date) := by
      intro hc
      exact hdisj hc (by simp)
    rw [groupFold_append, ih h1]
    unfold addRecord
    have hfst : (data.map
        (fun r : TransformedMeasurement => (r.date, [r]))).map Prod.fst =
        data.map (fun x => x.date) := by
      rw [List.map_map]
      rfl
    rw [hfst, if_neg hnotin]
    simp

/-- **C5**: on a measurement list in which every date occurs exactly once and
whose numeric fields are already at the aggregator's rounding precision
(its `source` fields carrying the import tag, as the TypeScript literal type
`'renpho_import'` guarantees), grouping by date and then averaging returns
the same list of records unchanged. -/
theorem claim_C5 (data : List TransformedMeasurement)
    (hnd : (data.map (fun x => x.date)).Nodup)
    (hprec : ∀ x ∈ data, x.source = "renpho_import" ∧ atRoundingPrecision x) :
    averageDailyMeasurements (groupByDate data).grouped = data := by
  rw [groupByDate_grouped, groupFold_nodup_dates data hnd]
  unfold averageDailyMeasurements
  rw [List.map_map]
  have hcong : ∀ x ∈ data,
      ((fun p : String × List TransformedMeasurement => averageOne p.1 p.2) ∘
        (fun r : TransformedMeasurement => (r.date, [r]))) x = id x := by
    intro x hx
    obtain ⟨hsrc, hp⟩ := hprec x hx
    exact averageOne_single x hsrc hp
  rw [List.map_congr_left hcong, List.map_id]

/-- Example input for C5: one record per date, all fields at rounding
precision. -/
def exC5 : List TransformedMeasurement :=
  [mBase, { mBase with date := "2024-01-02", weight := 71 }]

/-- Witness for C5 at a concrete two-record input. -/
theorem claim_C5_witness :
    averageDailyMeasurements (groupByDate exC5).grouped = exC5 :=
  claim_C5 exC5 (by decide) (by norm_num [exC5, mBase, atRoundingPrecision])

/-- Arithmetic mean of a numeric field over a bucket (the spec's wording). -/
def meanField (records : List TransformedMeasurement)
    (f : TransformedMeasurement → ℚ) : ℚ :=
  (records.map f).sum / records.length

/-- Round to one decimal place with halves away from zero — the rounding
policy the spec states for the `average` strategy. -/
def roundHalfAwayFromZero1 (x : ℚ) : ℚ :=
  if 0 ≤ x then (⌊x * 10 + 1 / 2⌋ : ℚ) / 10
  else -((⌊-x * 10 + 1 / 2⌋ : ℚ) / 10)

/-- Round to one decimal place with halves toward positive infinity — what
`roundToDecimal _ 1` (built on JavaScript `Math.round`) actually does. -/
def roundHalfUp1 (x : ℚ) : ℚ := (⌊x * 10 + 1 / 2⌋ : ℚ) / 10

/-- Round to the nearest integer (halves toward positive infinity), as a
rational. -/
def roundNearestInt (x : ℚ) : ℚ := (⌊x + 1 / 2⌋ : ℚ)

/-- The averaged record for one date bucket as the spec describes it,
parameterized by the 1-decimal rounding policy `rnd`: every decimal field is
the arithmetic mean of the bucket rounded by `rnd`; `basal_metabolic_rate`,
`metabolic_age` and `body_type` round to the nearest integer; `time` is the
first record's time; `source` is the import tag. -/
def specAveraged (rnd : ℚ → ℚ) (date : String)
    (records : List TransformedMeasurement) : TransformedMeasurement :=
  { date := date
    time := records.headI.time
    weight := rnd (meanField records (fun r => r.weight))
    bmi := rnd (meanField records (fun r => r.bmi))
    body_fat_percentage := rnd (meanField records (fun r => r.body_fat_percentage))
    skeletal_muscle_percentage :=
      rnd (meanField records (fun r => r.skeletal_muscle_percentage))
    fat_free_body_weight := rnd (meanField records (fun r => r.fat_free_body_weight))
    subcutaneous_fat_percentage :=
      rnd (meanField records (fun r => r.subcutaneous_fat_percentage))
    visceral_fat := rnd (meanField records (fun r => r.visceral_fat))
    body_water_percentage := rnd (meanField records (fun r => r.body_water_percentage))
    muscle_mass := rnd (meanField records (fun r => r.muscle_mass))
    bone_mass := rnd (meanField records (fun r => r.bone_mass))
    protein_percentage := rnd (meanField records (fun r => r.protein_percentage))
    basal_metabolic_rate :=
      roundNearestInt (meanField records (fun r => r.basal_metabolic_rate))
    metabolic_age := roundNearestInt (meanField records (fun r => r.metabolic_age))
    body_type := roundNearestInt (meanField records (fun r => r.body_type))
    source := "renpho_import" }

/-- The average strategy matches the spec's per-bucket description under a
given 1-decimal rounding policy. -/
def averagesMatch (rnd : ℚ → ℚ) (grouped : Grouped) : Prop :=
  averageDailyMeasurements grouped =
    grouped.map (fun p => specAveraged rnd p.1 p.2)

theorem avgField1_eq_spec (records : List TransformedMeasurement)
    (f : TransformedMeasurement → ℚ) :
    avgField1 records f = roundHalfUp1 (meanField records f) := by
  unfold avgField1 roundHalfUp1 roundToDecimal jsRound meanField
  rw [sumBy_eq_sum]
  norm_num

theorem avgFieldInt_eq_spec (records : List TransformedMeasurement)
    (f : TransformedMeasurement → ℚ) :
    avgFieldInt records f = roundNearestInt (meanField records f) := by
  unfold avgFieldInt roundNearestInt jsRound meanField
  rw [sumBy_eq_sum]

theorem averageOne_eq_spec (d : String) (records : List TransformedMeasurement) :
    averageOne d records = specAveraged roundHalfUp1 d records :=
  TransformedMeasurement.ext rfl rfl (avgField1_eq_spec ..) (avgField1_eq_spec ..)
    (avgField1_eq_spec ..) (avgField1_eq_spec ..) (avgField1_eq_spec ..)
    (avgField1_eq_spec ..) (avgField1_eq_spec ..) (avgField1_eq_spec ..)
    (avgField1_eq_spec ..) (avgField1_eq_spec ..) (avgField1_eq_spec ..)
    (avgFieldInt_eq_spec ..) (avgFieldInt_eq_spec ..) (avgFieldInt_eq_spec ..) rfl

/-- A record whose weight is a negative half-multiple of 1/10: the point
where round-half-up and round-half-away-from-zero disagree. -/
def mNeg : TransformedMeasurement := { mBase with weight := -(1 / 20) }

/-- A one-bucket grouped mapping exhibiting the rounding-mode mismatch. -/
def exC2bad : Grouped := [("2024-01-01", [mNeg])]

/-- **C2 counterexample**: on a bucket whose mean weight is −0.05, the code
(JavaScript `Math.round`, halves toward +∞) produces weight 0 while the
spec's round-half-away-from-zero produces −0.1, so the claim's equality
fails at this input. -/
theorem claim_C2_counterexample :
    ¬ averagesMatch roundHalfAwayFromZero1 exC2bad ∧
    (averageDailyMeasurements exC2bad).map (fun m => m.weight) = [0] ∧
    (specAveraged roundHalfAwayFromZero1 "2024-01-01" [mNeg]).weight = -(1 / 10) := by
  refine ⟨?_, ?_, ?_⟩
  · intro h
    have h2 := congrArg (fun l => l.map (fun m : TransformedMeasurement => m.weight)) h
    norm_num [averageDailyMeasurements, averageOne, avgField1, avgFieldInt, sumBy,
      roundToDecimal, jsRound, exC2bad, mNeg, mBase, specAveraged, meanField,
      roundHalfAwayFromZero1, roundNearestInt] at h2
  · norm_num [averageDailyMeasurements, averageOne, avgField1, sumBy,
      roundToDecimal, jsRound, exC2bad, mNeg, mBase]
  · norm_num [specAveraged, meanField, roundHalfAwayFromZero1, mNeg, mBase]

/-- A one-date bucket holding two records with weights 70 and 72. -/
def exC2pair : Grouped := [("2024-01-01", [mBase, { mBase with weight := 72 }])]

/-- **C2 (amended)**: for every grouped mapping whose buckets are non-empty,
the average strategy emits exactly one record per bucket in which every
decimal numeric field is the arithmetic mean of the bucket rounded to 1
decimal place with halves toward positive infinity (JavaScript `Math.round`;
this agrees with round-half-away-from-zero on non-negative values),
`basal_metabolic_rate`, `metabolic_age` and `body_type` round to the nearest
integer, `time` is the first record's time and `source` is the import tag;
in particular two records dated 2024-01-01 with weights 70 and 72 average to
one record with weight 71. -/
theorem claim_C2 (grouped : Grouped) (_hne : ∀ p ∈ grouped, p.2 ≠ []) :
    averagesMatch roundHalfUp1 grouped ∧
    (averageDailyMeasurements exC2pair).map (fun m => (m.date, m.weight)) =
      [("2024-01-01", (71 : ℚ))] := by
  constructor
  · unfold averagesMatch averageDailyMeasurements
    apply List.map_congr_left
    intro p _
    exact averageOne_eq_spec p.1 p.2
  · norm_num [averageDailyMeasurements, averageOne, avgField1, avgFieldInt,
      sumBy, roundToDecimal, jsRound, exC2pair, mBase]

/-- Witness for C2 at the concrete two-record bucket. -/
theorem claim_C2_witness :
    averagesMatch roundHalfUp1 exC2pair ∧
    (averageDailyMeasurements exC2pair).map (fun m => (m.date, m.weight)) =
      [("2024-01-01", (71 : ℚ))] :=
  claim_C2 exC2pair (by decide)

end CsvParsingService

/-- Error codes of `RenphoImportError` in `renpho-import.types.ts`. -/
inductive ErrorCode where
  | INVALID_FILE
  | PARSING_ERROR
  | VALIDATION_ERROR
  | IMPORT_ERROR
  deriving DecidableEq, Repr

/-- `RenphoImportError` (message and code; the loosely-typed `details`
payload is not modelled). -/
structure RenphoImportError where
  message : String
  code : ErrorCode
  deriving DecidableEq, Repr

/-- `ImportStrategy` from `renpho-import.types.ts`. -/
inductive ImportStrategy where
  | average
  | keep_all
  deriving DecidableEq, Repr

/-- Warning events of `ImportValidationService`.  The code builds warning
strings by interpolating JavaScript number and locale-date renderings; the
warnings are modelled as structured events carrying the interpolated
values. -/
inductive Warning where
  | skeletalMuscleUnusual (row : ℕ) (value : ℚ)
  | bodyWaterUnusual (row : ℕ) (value : ℚ)
  | visceralFatUnusual (row : ℕ) (value : ℚ)
  | bmrUnusual (row : ℕ) (value : ℚ)
  | metabolicAgeUnusual (row : ℕ) (value : ℚ)
  | unusualTimeFormat (row : ℕ) (value : String)
  | duplicateDatesFound (numDates : ℕ)
  | duplicateDate (date : String) (count : ℕ)
  | futureDates (maxDate : ℤ)
  | veryOldDates (minDate : ℤ)
  | longDateSpan (days : ℤ)
  | largeWeightVariation (minW maxW : ℚ)
  | inconsistentBmi (count : ℕ)
  deriving DecidableEq, Repr

/-- `ValidationResult` from `renpho-import.types.ts`. -/
structure ValidationResult where
  errors : List String
  warnings : List Warning
  isValid : Bool
  deriving DecidableEq, Repr

/-- `RenphoRawData`: one decoded CSV row, fields named after the vendor's
column names.  The columns the transformer reads through a `|| 0` default
are optional; the three core columns (and the date and time strings) are
modelled as present, numeric values. -/
structure RenphoRawData where
  fecha : String
  hora : String
  peso : ℚ
  imc : ℚ
  grasaCorporal : ℚ
  musculoEsqueletico : Option ℚ
  pesoCorporalSinGrasa : Option ℚ
  grasaSubcutanea : Option ℚ
  grasaVisceral : Option ℚ
  aguaCorporal : Option ℚ
  masaMuscular : Option ℚ
  masaOsea : Option ℚ
  proteina : Option ℚ
  tasaMetabolicaBasal : Option ℚ
  edadMetabolica : Option ℚ
  tipoDeCuerpo : Option ℚ
  deriving DecidableEq, Repr

/-- `ParseResult` from `renpho-import.types.ts`. -/
structure ParseResult where
  originalData : List RenphoRawData
  transformedData : List TransformedMeasurement
  grouped : Grouped
  duplicates : List DuplicateDetection
  validation : ValidationResult
  deriving Repr

/-- `ImportResult` from `renpho-import.types.ts`. -/
structure ImportResult where
  strategy : ImportStrategy
  successful : ℕ
  failed : ℕ
  errors : List String
  processedData : List TransformedMeasurement
  deriving DecidableEq, Repr

/-- Gregorian leap year. -/
def isLeapYear (y : ℤ) : Bool := y % 4 = 0 && (y % 100 ≠ 0 || y % 400 = 0)

/-- Days in a month of the Gregorian calendar. -/
def daysInMonth (y m : ℤ) : ℤ :=
  if m = 2 then (if isLeapYear y then 29 else 28)
  else if m = 4 || m = 6 || m = 9 || m = 11 then 30 else 31

/-- Days since 1970-01-01 of a Gregorian civil date (Hinnant's
days-from-civil algorithm; `/` on ℤ is floor division for these positive
divisors). -/
def daysFromCivil (y m d : ℤ) : ℤ :=
  let yAdj := if m ≤ 2 then y - 1 else y
  let era := yAdj / 400
  let yoe := yAdj - era * 400
  let mp := (m + 9) % 12
  let doy := (153 * mp + 2) / 5 + d - 1
  let doe := yoe * 365 + yoe / 4 - yoe / 100 + doy
  era * 146097 + doe - 719468

/-- Numeric value of a digit list, most significant first. -/
def digitsVal (cs : List Char) : ℤ :=
  cs.foldl (fun a c => a * 10 + ((c.toNat : ℤ) - 48)) 0

/-- Split a `YYYY-MM-DD` string (the shape required by the
`^\d{4}-\d{2}-\d{2}$` regex of `isValidDate`) into year, month, day. -/
def parseIsoParts (s : String) : Option (ℤ × ℤ × ℤ) :=
  match s.toList with
  | [y1, y2, y3, y4, h1, m1, m2, h2, d1, d2] =>
    if y1.isDigit && y2.isDigit && y3.isDigit && y4.isDigit && h1 = '-' &&
        m1.isDigit && m2.isDigit && h2 = '-' && d1.isDigit && d2.isDigit then
      some (digitsVal [y1, y2, y3, y4], digitsVal [m1, m2], digitsVal [d1, d2])
    else none
  | _ => none

/-- `new Date(dateString).getTime()` for a date-only ISO string, in epoch
days: `some` of the day number when the components form a valid calendar
date, `none` for `NaN` (ECMAScript rejects out-of-range components of the
Date Time String Format).  Non-ISO inputs, which engines may parse
implementation-specifically, are modelled as invalid. -/
def jsDateEpochDays (s : String) : Option ℤ :=
  match parseIsoParts s with
  | some (y, m, d) =>
    if 1 ≤ m ∧ m ≤ 12 ∧ 1 ≤ d ∧ d ≤ daysInMonth y m then
      some (daysFromCivil y m d)
    else none
  | none => none

namespace RenphoImportService

/-- `RenphoImportService.processImport`.  The source contains no persistence
call (a TODO comment marks where one would go) and only a simulated delay,
so the embedding is a pure function: fail fast with a `VALIDATION_ERROR`
when the parse result's validation is invalid, otherwise aggregate per the
strategy and report every record as successful. -/
def processImport (parseResult : ParseResult) (strategy : ImportStrategy) :
    Except RenphoImportError ImportResult :=
  if !parseResult.validation.isValid then
    .error
      { message :=
          "Cannot import data with validation errors. Please fix the errors first."
        code := .VALIDATION_ERROR }
  else
    let finalData :=
      if strategy = .average then
        CsvParsingService.averageDailyMeasurements parseResult.grouped
      else parseResult.transformedData
    .ok
      { strategy := strategy
        successful := finalData.length
        failed := 0
        errors := []
        processedData := finalData }

/-- **C1**: for every `ParseResult` whose validation is invalid and every
strategy, `processImport` fails with a `VALIDATION_ERROR` and produces no
`ImportResult` (the embedding has no persistence call at all, matching the
source, so no persistence is invoked and no aggregation result escapes). -/
theorem claim_C1 (pr : ParseResult) (strategy : ImportStrategy)
    (h : pr.validation.isValid = false) :
    (∃ e : RenphoImportError, processImport pr strategy = .error e ∧
      e.code = .VALIDATION_ERROR) ∧
    ∀ res : ImportResult, processImport pr strategy ≠ .ok res := by
  unfold processImport
  rw [h]
  exact ⟨⟨_, rfl, rfl⟩, fun res hres => by simp at hres⟩

/-- A concrete invalid parse result. -/
def exParseInvalid : ParseResult :=
  { originalData := []
    transformedData := [CsvParsingService.mBase]
    grouped := [("2024-01-01", [CsvParsingService.mBase])]
    duplicates := []
    validation :=
      { errors := ["Row 1: weight: Minimum weight is 30kg"]
        warnings := []
        isValid := false } }

/-- Witness for C1 at a concrete invalid parse result. -/
theorem claim_C1_witness :
    (∃ e : RenphoImportError,
      processImport exParseInvalid .average = .error e ∧
      e.code = .VALIDATION_ERROR) ∧
    ∀ res : ImportResult, processImport exParseInvalid .average ≠ .ok res :=
  claim_C1 exParseInvalid .average rfl

/-- **C9**: for every `ParseResult` whose validation is valid and every
strategy, `processImport` returns an `ImportResult` with `failed = 0`, no
errors, and `successful` equal to the length of `processedData`: with no
persistence call in the code, no partial failure can ever be reported. -/
theorem claim_C9 (pr : ParseResult) (strategy : ImportStrategy)
    (h : pr.validation.isValid = true) :
    ∃ res : ImportResult, processImport pr strategy = .ok res ∧
      res.failed = 0 ∧ res.errors = [] ∧
      res.successful = res.processedData.length := by
  unfold processImport
  rw [h]
  exact ⟨_, rfl, rfl, rfl, rfl⟩

/-- A concrete valid parse result. -/
def exParseValid : ParseResult :=
  { originalData := []
    transformedData := CsvParsingService.exDup
    grouped := (CsvParsingService.groupByDate CsvParsingService.exDup).grouped
    duplicates := (CsvParsingService.groupByDate CsvParsingService.exDup).duplicates
    validation := { errors := [], warnings := [], isValid := true } }

/-- Witness for C9 at a concrete valid parse result. -/
theorem claim_C9_witness :
    ∃ res : ImportResult, processImport exParseValid .average = .ok res ∧
      res.failed = 0 ∧ res.errors = [] ∧
      res.successful = res.processedData.length :=
  claim_C9 exParseValid .average rfl

/-- Stable insertion of `a` into `l`: `a` goes before the first element `b`
with `cmp b a > 0` (equal-comparing elements keep their relative order). -/
def insertByCmp (cmp : TransformedMeasurement → TransformedMeasurement → ℤ)
    (a : TransformedMeasurement) :
    List TransformedMeasurement → List TransformedMeasurement
  | [] => [a]
  | b :: l => if cmp b a ≤ 0 then b :: insertByCmp cmp a l else a :: b :: l

/-- A stable comparator sort (insertion sort).  ECMAScript
`Array.prototype.sort` guarantees a stable result that is sorted whenever
the comparator is consistent on the elements; every compliant
implementation then produces the same permutation, which insertion sort
realizes. -/
def jsSortBy (cmp : TransformedMeasurement → TransformedMeasurement → ℤ)
    (l : List TransformedMeasurement) : List TransformedMeasurement :=
  l.foldr (insertByCmp cmp) []

/-- The comparator
`(a, b) => new Date(b.date).getTime() - new Date(a.date).getTime()` of
`previewData`, in epoch days; a `NaN` comparator result is treated as 0, as
the ECMAScript sort specification treats it. -/
def dateDescCmp (a b : TransformedMeasurement) : ℤ :=
  match jsDateEpochDays b.date, jsDateEpochDays a.date with
  | some db, some da => db - da
  | _, _ => 0

/-- The data `previewData` selects for a strategy: the daily averages for
`average`, the full transformed list otherwise. -/
def strategyData (parseResult : ParseResult) (strategy : ImportStrategy) :
    List TransformedMeasurement :=
  if strategy = .average then
    CsvParsingService.averageDailyMeasurements parseResult.grouped
  else parseResult.transformedData

/-- `RenphoImportService.previewData`: sort the strategy's data by date
descending and keep the first `limit` (default 5) entries. -/
def previewData (parseResult : ParseResult) (strategy : ImportStrategy)
    (limit : ℕ := 5) : List TransformedMeasurement :=
  (jsSortBy dateDescCmp (strategyData parseResult strategy)).take limit

theorem mem_insertByCmp
    (cmp : TransformedMeasurement → TransformedMeasurement → ℤ)
    (a x : TransformedMeasurement) (l : List TransformedMeasurement) :
    x ∈ insertByCmp cmp a l ↔ x = a ∨ x ∈ l := by
  induction l with
  | nil => simp [insertByCmp]
  | cons b l ih =>
    unfold insertByCmp
    split
    · simp only [List.mem_cons, ih]
      tauto
    · simp only [List.mem_cons]

theorem mem_jsSortBy
    (cmp : TransformedMeasurement → TransformedMeasurement → ℤ)
    (x : TransformedMeasurement) (l : List TransformedMeasurement) :
    x ∈ jsSortBy cmp l ↔ x ∈ l := by
  induction l with
  | nil => simp [jsSortBy]
  | cons b l ih =>
    rw [show jsSortBy cmp (b :: l) = insertByCmp cmp b (jsSortBy cmp l) from rfl,
      mem_insertByCmp]
    simp [ih]

/-- Date-descending order on records, via their parsed epoch days. -/
def dateDescR (a b : TransformedMeasurement) : Prop :=
  ∀ x y : ℤ, jsDateEpochDays a.date = some x → jsDateEpochDays b.date = some y →
    y ≤ x

theorem pairwise_insertByCmp (a : TransformedMeasurement)
    (hpa : (jsDateEpochDays a.date).isSome) :
    ∀ l : List TransformedMeasurement,
      (∀ x ∈ l, (jsDateEpochDays x.date).isSome) → l.Pairwise dateDescR →
      (insertByCmp dateDescCmp a l).Pairwise dateDescR := by
  obtain ⟨da, hda⟩ := Option.isSome_iff_exists.mp hpa
  intro l
  induction l with
  | nil =>
    intro _ _
    simp [insertByCmp]
  | cons b l ih =>
    intro hpl hs
    have hb : (jsDateEpochDays b.date).isSome := hpl b (by simp)
    obtain ⟨db, hdb⟩ := Option.isSome_iff_exists.mp hb
    have hl : ∀ x ∈ l, (jsDateEpochDays x.date).isSome := fun x hx =>
      hpl x (by simp [hx])
    rw [List.pairwise_cons] at hs
    obtain ⟨hbl, hsl⟩ := hs
    unfold insertByCmp
    split
    · rename_i hcmp
      have hcmp2 : da - db ≤ 0 := by
        simpa [dateDescCmp, hda, hdb] using hcmp
      rw [List.pairwise_cons]
      refine ⟨?_, ih hl hsl⟩
      intro x hx
      rcases (mem_insertByCmp dateDescCmp a x l).mp hx with rfl | hx
      · intro u v hu hv
        rw [hdb] at hu
        rw [hda] at hv
        have hu2 : db = u := Option.some.inj hu
        have hv2 : da = v := Option.some.inj hv
        omega
      · exact hbl x hx
    · rename_i hcmp
      have hcmp2 : ¬ da - db ≤ 0 := by
        simpa [dateDescCmp, hda, hdb] using hcmp
      rw [List.pairwise_cons]
      constructor
      · intro x hx
        rcases List.mem_cons.mp hx with rfl | hx
        · intro u v hu hv
          rw [hda] at hu
          rw [hdb] at hv
          have hu2 : da = u := Option.some.inj hu
          have hv2 : db = v := Option.some.inj hv
          omega
        · intro u v hu hv
          rw [hda] at hu
          have hu2 : da = u := Option.some.inj hu
          have hvb := hbl x hx db v hdb hv
          omega
      · exact List.pairwise_cons.mpr ⟨hbl, hsl⟩

theorem pairwise_jsSortBy (l : List TransformedMeasurement)
    (hp : ∀ x ∈ l, (jsDateEpochDays x.date).isSome) :
    (jsSortBy dateDescCmp l).Pairwise dateDescR := by
  induction l with
  | nil => simp [jsSortBy]
  | cons b l ih =>
    rw [show jsSortBy dateDescCmp (b :: l) =
      insertByCmp dateDescCmp b (jsSortBy dateDescCmp l) from rfl]
    refine pairwise_insertByCmp b (hp b (by simp)) _ ?_ ?_
    · intro x hx
      exact hp x (by simp [(mem_jsSortBy dateDescCmp x l).mp hx])
    · exact ih fun x hx => hp x (by simp [hx])

/-- **C10**: for every parse result, strategy and limit, `previewData`
returns at most `limit` measurements (default 5), sorted by date in
descending order, drawn from the daily-averaged set when the strategy is
`average` and from the full transformed list otherwise (stated for data
whose date strings are valid ISO dates, which is what the sort comparator
orders; an invalid date makes the comparator inconsistent and the sorted
order implementation-defined). -/
theorem claim_C10 (pr : ParseResult) (strategy : ImportStrategy) (limit : ℕ)
    (hvalid : ∀ m ∈ strategyData pr strategy, (jsDateEpochDays m.date).isSome) :
    (previewData pr strategy limit).length ≤ limit ∧
    (previewData pr strategy limit).Pairwise dateDescR ∧
    (∀ m ∈ previewData pr strategy limit, m ∈ strategyData pr strategy) ∧
    previewData pr strategy = previewData pr strategy 5 := by
  refine ⟨?_, ?_, ?_, rfl⟩
  · unfold previewData
    rw [List.length_take]
    exact min_le_left _ _
  · unfold previewData
    exact List.Pairwise.sublist (List.take_sublist _ _)
      (pairwise_jsSortBy _ hvalid)
  · intro m hm
    unfold previewData at hm
    exact (mem_jsSortBy dateDescCmp m _).mp (List.take_subset _ _ hm)

/-- Witness for C10: the valid example parse result, `keep_all`, limit 1. -/
theorem claim_C10_witness :
    (previewData exParseValid .keep_all 1).length ≤ 1 ∧
    (previewData exParseValid .keep_all 1).Pairwise dateDescR ∧
    (∀ m ∈ previewData exParseValid .keep_all 1,
      m ∈ strategyData exParseValid .keep_all) ∧
    previewData exParseValid .keep_all = previewData exParseValid .keep_all 5 :=
  claim_C10 exParseValid .keep_all 1 (by decide)

end RenphoImportService

namespace CsvParsingService

/-- Accumulator loop of `String.prototype.split` with a one-character
separator, on the code-point list. -/
def splitAux (sep : Char) : List Char → List Char → List (List Char)
  | [], acc => [acc.reverse]
  | c :: rest, acc =>
    if c = sep then acc.reverse :: splitAux sep rest []
    else splitAux sep rest (c :: acc)

/-- JavaScript `s.split(sep)` for a single-character separator. -/
def jsSplit (s : String) (sep : Char) : List String :=
  (splitAux sep s.toList []).map (fun cs => ⟨cs⟩)

/-- JavaScript `s.trim()`: strip leading and trailing whitespace. -/
def jsTrim (s : String) : String :=
  ⟨((s.toList.dropWhile Char.isWhitespace).reverse.dropWhile
      Char.isWhitespace).reverse⟩

/-- JavaScript `padStart(2, '0')`. -/
def padStart2 (s : String) : String :=
  ⟨List.replicate (2 - s.length) '0'⟩ ++ s

/-- The leading decimal-digit prefix of a character list as an integer;
`none` models `NaN` (no leading digits). -/
def parseDigitsPrefix (cs : List Char) : Option ℤ :=
  let ds := cs.takeWhile Char.isDigit
  if ds = [] then none else some (digitsVal ds)

/-- JavaScript `parseInt(s)` in base 10: optional sign, then the leading
digit prefix; `none` models `NaN`.  (Whitespace skipping and the hex
prefix, which cannot occur in the parts of a split date string handled
here, are not modelled.) -/
def parseIntChars (cs : List Char) : Option ℤ :=
  match cs with
  | c :: rest =>
    if c = '-' then (parseDigitsPrefix rest).map (fun n => -n)
    else if c = '+' then parseDigitsPrefix rest
    else parseDigitsPrefix cs
  | [] => none

/-- JavaScript `parseInt` on a string. -/
def parseIntJS (s : String) : Option ℤ := parseIntChars s.toList

/-- One row of `transformRenphoData`: split `Fecha` on `/`, require exactly
three parts (`const [day, month, year] = dateParts` after the length
check, else a thrown transform error), expand the two-digit year by the
century pivot `parseInt(year) < 50 ? 20xx : 19xx` (a `NaN` comparison is
false and takes the `19` branch), zero-pad day and month into
`YYYY-MM-DD`, trim the time, copy the three core numeric fields directly
and the optional ones through their `|| 0` default. -/
def transformRow (row : RenphoRawData) : Except String TransformedMeasurement :=
  match jsSplit row.fecha '/' with
  | [day, month, year] =>
    let yearLt50 : Bool :=
      match parseIntJS year with
      | some n => n < 50
      | none => false
    let fullYear := if yearLt50 then "20" ++ year else "19" ++ year
    let isoDate := fullYear ++ "-" ++ padStart2 month ++ "-" ++ padStart2 day
    .ok
      { date := isoDate
        time := jsTrim row.hora
        weight := row.peso
        bmi := row.imc
        body_fat_percentage := row.grasaCorporal
        skeletal_muscle_percentage := row.musculoEsqueletico.getD 0
        fat_free_body_weight := row.pesoCorporalSinGrasa.getD 0
        subcutaneous_fat_percentage := row.grasaSubcutanea.getD 0
        visceral_fat := row.grasaVisceral.getD 0
        body_water_percentage := row.aguaCorporal.getD 0
        muscle_mass := row.masaMuscular.getD 0
        bone_mass := row.masaOsea.getD 0
        protein_percentage := row.proteina.getD 0
        basal_metabolic_rate := row.tasaMetabolicaBasal.getD 0
        metabolic_age := row.edadMetabolica.getD 0
        body_type := row.tipoDeCuerpo.getD 0
        source := "renpho_import" }
  | _ => .error ("Invalid date format: " ++ row.fecha)

/-- `transformRenphoData`: transform every row, the first thrown transform
error aborting the whole map. -/
def transformRenphoData (rawData : List RenphoRawData) :
    Except String (List TransformedMeasurement) :=
  rawData.mapM transformRow

theorem parseIntJS_two_digits (c1 c2 : Char) (h1 : c1.isDigit = true)
    (h2 : c2.isDigit = true) :
    parseIntJS ⟨[c1, c2]⟩ =
      some (((c1.toNat : ℤ) - 48) * 10 + ((c2.toNat : ℤ) - 48)) := by
  have hne1 : c1 ≠ '-' := by
    intro h
    rw [h] at h1
    simp at h1
  have hne2 : c1 ≠ '+' := by
    intro h
    rw [h] at h1
    simp at h1
  show parseIntChars [c1, c2] = _
  change (if c1 = '-' then Option.map (fun n => -n) (parseDigitsPrefix [c2])
    else if c1 = '+' then parseDigitsPrefix [c2]
    else parseDigitsPrefix [c1, c2]) = _
  rw [if_neg hne1, if_neg hne2]
  unfold parseDigitsPrefix
  have ht : [c1, c2].takeWhile Char.isDigit = [c1, c2] := by
    simp [List.takeWhile_cons, h1, h2]
  rw [ht]
  rw [if_neg (by simp : ([c1, c2] : List Char) ≠ [])]
  unfold digitsVal
  simp only [List.foldl_cons, List.foldl_nil]
  congr 1
  ring

/-- A concrete raw vendor row with the given date string. -/
def exRaw (f : String) : RenphoRawData :=
  { fecha := f
    hora := " 7:57:06 a.m."
    peso := 70
    imc := 22
    grasaCorporal := 20
    musculoEsqueletico := some 40
    pesoCorporalSinGrasa := some 56
    grasaSubcutanea := some 18
    grasaVisceral := some 6
    aguaCorporal := some 55
    masaMuscular := some 50
    masaOsea := some 3
    proteina := some 17
    tasaMetabolicaBasal := some 1500
    edadMetabolica := some 30
    tipoDeCuerpo := some 5 }

/-- **C3**: for every raw record whose `Fecha` splits into
day/month/two-digit-year, the transform produces the ISO date built from
the zero-padded day and month and the expanded year, whose century is 20xx
exactly when the two-digit year is below 50; in particular "15/03/24"
becomes "2024-03-15" and "15/03/75" becomes "1975-03-15". -/
theorem claim_C3 (row : RenphoRawData) (d m : String) (c1 c2 : Char)
    (hsplit : jsSplit row.fecha '/' = [d, m, ⟨[c1, c2]⟩])
    (h1 : c1.isDigit = true) (h2 : c2.isDigit = true) :
    (∃ tm, transformRow row = .ok tm ∧
      tm.date =
        (if ((c1.toNat : ℤ) - 48) * 10 + ((c2.toNat : ℤ) - 48) < 50
          then "20" else "19") ++
          (⟨[c1, c2]⟩ : String) ++ "-" ++ padStart2 m ++ "-" ++ padStart2 d) ∧
    ((transformRow (exRaw "15/03/24")).toOption.map (fun tm => tm.date) =
      some "2024-03-15") ∧
    ((transformRow (exRaw "15/03/75")).toOption.map (fun tm => tm.date) =
      some "1975-03-15") := by
  refine ⟨?_, by decide, by decide⟩
  unfold transformRow
  rw [hsplit]
  refine ⟨_, rfl, ?_⟩
  rw [parseIntJS_two_digits c1 c2 h1 h2]
  by_cases hv : ((c1.toNat : ℤ) - 48) * 10 + ((c2.toNat : ℤ) - 48) < 50
  · rw [if_pos (decide_eq_true hv), if_pos hv]
  · rw [if_neg (by simpa using hv), if_neg hv]

/-- Witness for C3 at the concrete row "15/03/24". -/
theorem claim_C3_witness :
    (∃ tm, transformRow (exRaw "15/03/24") = .ok tm ∧
      tm.date =
        (if ((('2').toNat : ℤ) - 48) * 10 + ((('4').toNat : ℤ) - 48) < 50
          then "20" else "19") ++
          (⟨['2', '4']⟩ : String) ++ "-" ++ padStart2 "03" ++ "-" ++
          padStart2 "15") ∧
    ((transformRow (exRaw "15/03/24")).toOption.map (fun tm => tm.date) =
      some "2024-03-15") ∧
    ((transformRow (exRaw "15/03/75")).toOption.map (fun tm => tm.date) =
      some "1975-03-15") :=
  claim_C3 (exRaw "15/03/24") "15" "03" '2' '4' (by decide) (by decide)
    (by decide)

end CsvParsingService

namespace ImportValidationService

open CsvParsingService

/-- Case-insensitive equality of character lists (the `/i` regex flag). -/
def eqCI (a b : List Char) : Bool := a.map Char.toLower = b.map Char.toLower

/-- The time regex
`^(\d{1,2}):(\d{2})(:(\d{2}))?\s*(a\.m\.|p\.m\.|AM|PM)?$/i` of
`isValidTime`, as a matcher on the character list (`\s` approximated by
`Char.isWhitespace`).  Greedy digit runs are equivalent to the regex here
because every digit group is followed by a non-digit requirement. -/
def isValidTimeChars (cs : List Char) : Bool :=
  let hd := cs.takeWhile Char.isDigit
  let rest1 := cs.dropWhile Char.isDigit
  (decide (hd.length = 1) || decide (hd.length = 2)) &&
    match rest1 with
    | ':' :: r1 =>
      let md := r1.takeWhile Char.isDigit
      let rest2 := r1.dropWhile Char.isDigit
      decide (md.length = 2) &&
        (let rest3 : Option (List Char) :=
          match rest2 with
          | ':' :: r2 =>
            let sd := r2.takeWhile Char.isDigit
            if sd.length = 2 then some (r2.dropWhile Char.isDigit) else none
          | _ => some rest2
        match rest3 with
        | none => false
        | some r =>
          let r4 := r.dropWhile Char.isWhitespace
          eqCI r4 [] || eqCI r4 "a.m.".toList || eqCI r4 "p.m.".toList ||
            eqCI r4 "AM".toList || eqCI r4 "PM".toList)
    | _ => false

/-- `ImportValidationService.isValidTime`: test the regex on the trimmed
time string. -/
def isValidTime (s : String) : Bool := isValidTimeChars (jsTrim s).toList

/-- `ImportValidationService.isValidDate`:
`!isNaN(new Date(s).getTime()) && /^\d{4}-\d{2}-\d{2}$/.test(s)`.  For
strings of that shape the engine uses the ISO parser, so validity is
exactly `jsDateEpochDays`. -/
def isValidDate (s : String) : Bool := (jsDateEpochDays s).isSome

/-- The issues `weightValidationSchema.safeParse` reports, in field and
check order, as (path, message) pairs;
`z.number().min(30).max(300)` checks `30 ≤ w` and `w ≤ 300`, and so on. -/
def weightValidationIssues (weight bmi body_fat : ℚ) : List (String × String) :=
  (if weight < 30 then [("weight", "Minimum weight is 30kg")] else []) ++
  (if 300 < weight then [("weight", "Maximum weight is 300kg")] else []) ++
  (if bmi < 10 then [("bmi", "BMI too low")] else []) ++
  (if 60 < bmi then [("bmi", "BMI too high")] else []) ++
  (if body_fat < 3 then [("body_fat_percentage", "Body fat percentage too low")]
    else []) ++
  (if 70 < body_fat then [("body_fat_percentage", "Body fat percentage too high")]
    else [])

/-- `ImportValidationService.validateSingleMeasurement`: zod issues become
errors tagged with the 1-based row number, advisory range violations and an
unusual time format become warnings, an invalid date becomes an error. -/
def validateSingleMeasurement (measurement : TransformedMeasurement)
    (rowNumber : ℕ) : ValidationResult :=
  let zodErrors :=
    (weightValidationIssues measurement.weight measurement.bmi
        measurement.body_fat_percentage).map
      (fun pm => "Row " ++ toString rowNumber ++ ": " ++ pm.1 ++ ": " ++ pm.2)
  let rangeWarnings :=
    (if measurement.skeletal_muscle_percentage < 0 ∨
        100 < measurement.skeletal_muscle_percentage then
      [Warning.skeletalMuscleUnusual rowNumber
        measurement.skeletal_muscle_percentage] else []) ++
    (if measurement.body_water_percentage < 30 ∨
        80 < measurement.body_water_percentage then
      [Warning.bodyWaterUnusual rowNumber measurement.body_water_percentage]
      else []) ++
    (if measurement.visceral_fat < 0 ∨ 30 < measurement.visceral_fat then
      [Warning.visceralFatUnusual rowNumber measurement.visceral_fat] else []) ++
    (if measurement.basal_metabolic_rate < 800 ∨
        4000 < measurement.basal_metabolic_rate then
      [Warning.bmrUnusual rowNumber measurement.basal_metabolic_rate] else []) ++
    (if measurement.metabolic_age < 10 ∨ 120 < measurement.metabolic_age then
      [Warning.metabolicAgeUnusual rowNumber measurement.metabolic_age] else [])
  let dateErrors :=
    if isValidDate measurement.date then []
    else ["Row " ++ toString rowNumber ++ ": Invalid date format: " ++
      measurement.date]
  let timeWarnings :=
    if isValidTime measurement.time then []
    else [Warning.unusualTimeFormat rowNumber measurement.time]
  let errors := zodErrors ++ dateErrors
  { errors := errors
    warnings := rangeWarnings ++ timeWarnings
    isValid := decide (errors.length = 0) }

/-- `ImportValidationService.validateDateRange`.  `new Date()` (evaluation
time) and the `setFullYear(-10)` cutoff are day-precision parameters;
`Math.ceil((max-min)/86400000)` is exact on ISO midnights, so the span is
`maxD - minD`. -/
def validateDateRange (nowDays tenYearsAgoDays : ℤ)
    (data : List TransformedMeasurement) : ValidationResult :=
  let dates := data.filterMap (fun mm => jsDateEpochDays mm.date)
  if dates.isEmpty then
    { errors := ["No valid dates found in the data"], warnings := []
      isValid := false }
  else
    let minD := dates.foldl min dates.headI
    let maxD := dates.foldl max dates.headI
    let daysDiff := maxD - minD
    { errors := []
      warnings :=
        (if nowDays < maxD then [Warning.futureDates maxD] else []) ++
        (if minD < tenYearsAgoDays then [Warning.veryOldDates minD] else []) ++
        (if 365 < daysDiff then [Warning.longDateSpan daysDiff] else [])
      isValid := true }

/-- The per-record test of the BMI-consistency filter:
`m.weight > 0 && m.bmi > 0` and implied height `sqrt(weight/bmi)` outside
[1.2, 2.5]; both sides of each comparison are non-negative, so squaring
renders it exactly: `weight/bmi < 1.44` or `weight/bmi > 6.25`. -/
def bmiInconsistent (mm : TransformedMeasurement) : Bool :=
  decide (0 < mm.weight) && decide (0 < mm.bmi) &&
    (decide (mm.weight / mm.bmi < 36 / 25) ||
      decide (25 / 4 < mm.weight / mm.bmi))

/-- `ImportValidationService.validateMeasurementConsistency`: skipped
entirely for fewer than two records; otherwise a large-weight-variation
warning and a single aggregate inconsistent-BMI count. -/
def validateMeasurementConsistency (data : List TransformedMeasurement) :
    ValidationResult :=
  if data.length < 2 then { errors := [], warnings := [], isValid := true }
  else
    let weights := (data.map (fun mm => mm.weight)).filter (fun w => 0 < w)
    let variationWarnings :=
      if 1 < weights.length then
        let minW := weights.foldl min weights.headI
        let maxW := weights.foldl max weights.headI
        if 30 < (maxW - minW) / minW * 100 then
          [Warning.largeWeightVariation minW maxW]
        else []
      else []
    let bmiCount := (data.filter (fun mm => bmiInconsistent mm)).length
    let bmiWarnings :=
      if 0 < bmiCount then [Warning.inconsistentBmi bmiCount] else []
    { errors := [], warnings := variationWarnings ++ bmiWarnings
      isValid := true }

/-- `ImportValidationService.validateMeasurements`: empty-data error, then
per-record validation (1-based rows), duplicate warnings, date-range
checks, consistency checks; `isValid` iff no errors accumulated. -/
def validateMeasurements (nowDays tenYearsAgoDays : ℤ)
    (data : List TransformedMeasurement)
    (duplicates : List DuplicateDetection) : ValidationResult :=
  if data.isEmpty then
    { errors := ["No valid measurements found in the CSV file"]
      warnings := [], isValid := false }
  else
    let singles := data.enum.map
      (fun p => validateSingleMeasurement p.2 (p.1 + 1))
    let perErrors := (singles.map (fun v => v.errors)).flatten
    let perWarnings := (singles.map (fun v => v.warnings)).flatten
    let dupWarnings :=
      if duplicates.isEmpty then []
      else Warning.duplicateDatesFound duplicates.length ::
        duplicates.map (fun dd => Warning.duplicateDate dd.date dd.count)
    let dr := validateDateRange nowDays tenYearsAgoDays data
    let cons := validateMeasurementConsistency data
    let errors := perErrors ++ dr.errors
    { errors := errors
      warnings := perWarnings ++ dupWarnings ++ dr.warnings ++ cons.warnings
      isValid := decide (errors.length = 0) }

theorem validateSingleMeasurement_errors (mm : TransformedMeasurement)
    (row : ℕ) :
    (validateSingleMeasurement mm row).errors =
      (weightValidationIssues mm.weight mm.bmi mm.body_fat_percentage).map
        (fun pm => "Row " ++ toString row ++ ": " ++ pm.1 ++ ": " ++ pm.2) ++
      (if isValidDate mm.date then []
        else ["Row " ++ toString row ++ ": Invalid date format: " ++
          mm.date]) := rfl

/-- Range-check predicates of the validator, named by field group. -/
def weightOk (mm : TransformedMeasurement) : Prop :=
  30 ≤ mm.weight ∧ mm.weight ≤ 300

def coreRestOk (mm : TransformedMeasurement) : Prop :=
  10 ≤ mm.bmi ∧ mm.bmi ≤ 60 ∧
  3 ≤ mm.body_fat_percentage ∧ mm.body_fat_percentage ≤ 70

def skeletalOk (mm : TransformedMeasurement) : Prop :=
  0 ≤ mm.skeletal_muscle_percentage ∧ mm.skeletal_muscle_percentage ≤ 100

def advisoryRestOk (mm : TransformedMeasurement) : Prop :=
  30 ≤ mm.body_water_percentage ∧ mm.body_water_percentage ≤ 80 ∧
  0 ≤ mm.visceral_fat ∧ mm.visceral_fat ≤ 30 ∧
  800 ≤ mm.basal_metabolic_rate ∧ mm.basal_metabolic_rate ≤ 4000 ∧
  10 ≤ mm.metabolic_age ∧ mm.metabolic_age ≤ 120

def formatsOk (mm : TransformedMeasurement) : Prop :=
  isValidDate mm.date = true ∧ isValidTime mm.time = true

theorem weightValidationIssues_nil (mm : TransformedMeasurement)
    (hw : weightOk mm) (hc : coreRestOk mm) :
    weightValidationIssues mm.weight mm.bmi mm.body_fat_percentage = [] := by
  obtain ⟨hw1, hw2⟩ := hw
  obtain ⟨hb1, hb2, hf1, hf2⟩ := hc
  unfold weightValidationIssues
  rw [if_neg (not_lt.mpr hw1), if_neg (not_lt.mpr hw2),
    if_neg (not_lt.mpr hb1), if_neg (not_lt.mpr hb2),
    if_neg (not_lt.mpr hf1), if_neg (not_lt.mpr hf2)]
  rfl

theorem weightValidationIssues_weight25 (mm : TransformedMeasurement)
    (hc : coreRestOk mm) (hw : mm.weight = 25) :
    weightValidationIssues mm.weight mm.bmi mm.body_fat_percentage =
      [("weight", "Minimum weight is 30kg")] := by
  obtain ⟨hb1, hb2, hf1, hf2⟩ := hc
  unfold weightValidationIssues
  rw [hw]
  rw [if_pos (by norm_num : (25 : ℚ) < 30),
    if_neg (by norm_num : ¬ (300 : ℚ) < 25),
    if_neg (not_lt.mpr hb1), if_neg (not_lt.mpr hb2),
    if_neg (not_lt.mpr hf1), if_neg (not_lt.mpr hf2)]
  rfl

theorem validateDateRange_errors_single (now tya : ℤ)
    (mm : TransformedMeasurement) (h : isValidDate mm.date = true) :
    (validateDateRange now tya [mm]).errors = [] := by
  obtain ⟨dd, hdd⟩ := Option.isSome_iff_exists.mp h
  unfold validateDateRange
  rw [show ([mm] : List TransformedMeasurement).filterMap
      (fun x => jsDateEpochDays x.date) = [dd] by
    simp [List.filterMap_cons, hdd]]
  rfl

theorem validateMeasurements_single_errors (now tya : ℤ)
    (mm : TransformedMeasurement) (dups : List DuplicateDetection) :
    (validateMeasurements now tya [mm] dups).errors =
      (validateSingleMeasurement mm 1).errors ++
        (validateDateRange now tya [mm]).errors := by
  have henum : ([mm] : List TransformedMeasurement).enum = [(0, mm)] := rfl
  simp [validateMeasurements, henum]

theorem validateMeasurements_single_warnings (now tya : ℤ)
    (mm : TransformedMeasurement) (dups : List DuplicateDetection) :
    (validateMeasurements now tya [mm] dups).warnings =
      (validateSingleMeasurement mm 1).warnings ++
        ((if dups.isEmpty then []
          else Warning.duplicateDatesFound dups.length ::
            dups.map (fun dd => Warning.duplicateDate dd.date dd.count)) ++
          (validateDateRange now tya [mm]).warnings) := by
  have henum : ([mm] : List TransformedMeasurement).enum = [(0, mm)] := rfl
  have hcons : (validateMeasurementConsistency [mm]).warnings = [] := rfl
  simp [validateMeasurements, henum, hcons, List.append_assoc]

theorem validateMeasurements_single_isValid (now tya : ℤ)
    (mm : TransformedMeasurement) (dups : List DuplicateDetection) :
    (validateMeasurements now tya [mm] dups).isValid =
      decide ((validateMeasurements now tya [mm] dups).errors.length = 0) := by
  have henum : ([mm] : List TransformedMeasurement).enum = [(0, mm)] := rfl
  simp [validateMeasurements, henum]

/-- **C6**: on a single-record set, weight 25 kg with everything else valid
yields `isValid = false` with exactly one error, the minimum-weight message;
skeletal-muscle 150 with everything else valid yields a warning carrying
that value and no error, `isValid` staying true; in general any violation of
weight ∈ [30,300], BMI ∈ [10,60] or body-fat ∈ [3,70] makes the per-record
errors non-empty, while the per-record errors do not depend on the advisory
fields at all. -/
theorem claim_C6 :
    (∀ (now tya : ℤ) (mm : TransformedMeasurement)
      (dups : List DuplicateDetection),
      coreRestOk mm → skeletalOk mm → advisoryRestOk mm → formatsOk mm →
      mm.weight = 25 →
      (validateMeasurements now tya [mm] dups).isValid = false ∧
      (validateMeasurements now tya [mm] dups).errors =
        ["Row 1: weight: Minimum weight is 30kg"]) ∧
    (∀ (now tya : ℤ) (mm : TransformedMeasurement)
      (dups : List DuplicateDetection),
      weightOk mm → coreRestOk mm → advisoryRestOk mm → formatsOk mm →
      mm.skeletal_muscle_percentage = 150 →
      (validateMeasurements now tya [mm] dups).errors = [] ∧
      (validateMeasurements now tya [mm] dups).isValid = true ∧
      Warning.skeletalMuscleUnusual 1 150 ∈
        (validateMeasurements now tya [mm] dups).warnings) ∧
    (∀ (mm : TransformedMeasurement) (row : ℕ),
      (mm.weight < 30 ∨ 300 < mm.weight ∨ mm.bmi < 10 ∨ 60 < mm.bmi ∨
        mm.body_fat_percentage < 3 ∨ 70 < mm.body_fat_percentage) →
      (validateSingleMeasurement mm row).errors ≠ []) ∧
    (∀ (mm mn : TransformedMeasurement) (row : ℕ),
      mm.weight = mn.weight → mm.bmi = mn.bmi →
      mm.body_fat_percentage = mn.body_fat_percentage → mm.date = mn.date →
      (validateSingleMeasurement mm row).errors =
        (validateSingleMeasurement mn row).errors) := by
  refine ⟨?_, ?_, ?_, ?_⟩
  · intro now tya mm dups hc hs ha hf hw
    obtain ⟨hdate, htime⟩ := hf
    have herrs : (validateMeasurements now tya [mm] dups).errors =
        ["Row 1: weight: Minimum weight is 30kg"] := by
      rw [validateMeasurements_single_errors,
        validateDateRange_errors_single now tya mm hdate,
        validateSingleMeasurement_errors,
        weightValidationIssues_weight25 mm hc hw, if_pos hdate]
      decide
    refine ⟨?_, herrs⟩
    rw [validateMeasurements_single_isValid, herrs]
    decide
  · intro now tya mm dups hw hc ha hf hsk
    obtain ⟨hdate, htime⟩ := hf
    have herrs : (validateMeasurements now tya [mm] dups).errors = [] := by
      rw [validateMeasurements_single_errors,
        validateDateRange_errors_single now tya mm hdate,
        validateSingleMeasurement_errors,
        weightValidationIssues_nil mm hw hc, if_pos hdate]
      decide
    refine ⟨herrs, ?_, ?_⟩
    · rw [validateMeasurements_single_isValid, herrs]
      decide
    · rw [validateMeasurements_single_warnings]
      apply List.mem_append_left
      show Warning.skeletalMuscleUnusual 1 150 ∈
        (validateSingleMeasurement mm 1).warnings
      unfold validateSingleMeasurement
      apply List.mem_append_left
      apply List.mem_append_left
      apply List.mem_append_left
      apply List.mem_append_left
      apply List.mem_append_left
      rw [hsk, if_pos (Or.inr (by norm_num : (100 : ℚ) < 150))]
      simp
  · intro mm row h
    rw [validateSingleMeasurement_errors]
    intro hcon
    rw [List.append_eq_nil] at hcon
    have hissues : weightValidationIssues mm.weight mm.bmi
        mm.body_fat_percentage = [] := by
      have := hcon.1
      rwa [List.map_eq_nil_iff] at this
    unfold weightValidationIssues at hissues
    rcases h with h | h | h | h | h | h <;> simp [h] at hissues
  · intro mm mn row hw hb hf hd
    rw [validateSingleMeasurement_errors, validateSingleMeasurement_errors,
      hw, hb, hf, hd]

/-- An otherwise-valid record with weight 25 kg. -/
def mW25 : TransformedMeasurement := { mBase with weight := 25 }

/-- Witness for C6 at the concrete weight-25 record. -/
theorem claim_C6_witness :
    (validateMeasurements 20000 16348 [mW25] []).isValid = false ∧
    (validateMeasurements 20000 16348 [mW25] []).errors =
      ["Row 1: weight: Minimum weight is 30kg"] :=
  claim_C6.1 20000 16348 mW25 []
    (by norm_num [coreRestOk, mW25, mBase])
    (by norm_num [skeletalOk, mW25, mBase])
    (by norm_num [advisoryRestOk, mW25, mBase])
    (by constructor <;> decide)
    rfl

/-- A predicate selecting the aggregate inconsistent-BMI warning. -/
def isBmiWarning : Warning → Bool := fun w =>
  match w with
  | Warning.inconsistentBmi _ => true
  | _ => false

/-- A record with weight 100 kg and BMI 100 (implied height 1 m, below
1.2 m). -/
def mInc : TransformedMeasurement := { mBase with weight := 100, bmi := 100 }

/-- **C8 counterexample**: a single-record set whose record has an
inconsistent BMI produces no warning at all, because
`validateMeasurementConsistency` returns early when the set has fewer than
two records — so not every such record is counted. -/
theorem claim_C8_counterexample :
    bmiInconsistent mInc = true ∧
    (validateMeasurementConsistency [mInc]).warnings = [] := by
  constructor
  · norm_num [bmiInconsistent, mInc, mBase]
  · rfl

/-- **C8 (amended)**: for every measurement set with at least two records,
the records with positive weight and BMI whose implied height
`sqrt(weight/bmi)` lies outside [1.2, 2.5] m are counted toward a single
aggregate inconsistent-BMI warning carrying their total count (and no such
warning appears when the count is zero); the boolean filter used by the
code is exactly the square-free form of the implied-height test. -/
theorem claim_C8 (data : List TransformedMeasurement) (h2 : 2 ≤ data.length) :
    ((validateMeasurementConsistency data).warnings.filter isBmiWarning =
      if 0 < (data.filter (fun mm => bmiInconsistent mm)).length then
        [Warning.inconsistentBmi
          (data.filter (fun mm => bmiInconsistent mm)).length]
      else []) ∧
    (∀ mm : TransformedMeasurement, bmiInconsistent mm = true ↔
      0 < mm.weight ∧ 0 < mm.bmi ∧
        (Real.sqrt ((mm.weight : ℝ) / (mm.bmi : ℝ)) < 1.2 ∨
          2.5 < Real.sqrt ((mm.weight : ℝ) / (mm.bmi : ℝ)))) := by
  constructor
  · unfold validateMeasurementConsistency
    rw [if_neg (by omega : ¬ data.length < 2)]
    rw [List.filter_append]
    split_ifs <;> simp [isBmiWarning]
  · intro mm
    unfold bmiInconsistent
    simp only [Bool.and_eq_true, Bool.or_eq_true, decide_eq_true_eq, and_assoc]
    refine and_congr_right fun hw => and_congr_right fun hb => or_congr ?_ ?_
    · rw [Real.sqrt_lt' (by norm_num : (0:ℝ) < 1.2)]
      rw [show ((mm.weight : ℝ) / (mm.bmi : ℝ)) =
        ((mm.weight / mm.bmi : ℚ) : ℝ) by push_cast; ring]
      rw [show ((1.2:ℝ)) ^ 2 = (((36 / 25 : ℚ) : ℝ)) by norm_num]
      exact (Rat.cast_lt (K := ℝ)).symm
    · rw [Real.lt_sqrt (by norm_num : (0:ℝ) ≤ 2.5)]
      rw [show ((mm.weight : ℝ) / (mm.bmi : ℝ)) =
        ((mm.weight / mm.bmi : ℚ) : ℝ) by push_cast; ring]
      rw [show ((2.5:ℝ)) ^ 2 = (((25 / 4 : ℚ) : ℝ)) by norm_num]
      exact (Rat.cast_lt (K := ℝ)).symm

/-- Witness for C8 at a concrete two-record set. -/
theorem claim_C8_witness :
    ((validateMeasurementConsistency [mInc, mBase]).warnings.filter
        isBmiWarning =
      if 0 < ([mInc, mBase].filter (fun mm => bmiInconsistent mm)).length then
        [Warning.inconsistentBmi
          ([mInc, mBase].filter (fun mm => bmiInconsistent mm)).length]
      else []) ∧
    (∀ mm : TransformedMeasurement, bmiInconsistent mm = true ↔
      0 < mm.weight ∧ 0 < mm.bmi ∧
        (Real.sqrt ((mm.weight : ℝ) / (mm.bmi : ℝ)) < 1.2 ∨
          2.5 < Real.sqrt ((mm.weight : ℝ) / (mm.bmi : ℝ)))) :=
  claim_C8 [mInc, mBase] (by decide)

end ImportValidationService

end HealthTracker
